import Mathlib

/-!
Verification of the Singularity agent-loop backend.

This file gives a shallow embedding of the core of the repository:
the sandboxed tool executor (src/functions/write_files.py and
src/functions/run_python_file.py), the tool dispatcher and orchestrator
loop (src/app.py), the quota-based model selector and the per-user
rate limiter (src/database.py), and proves the documented properties
about them.

Modelling conventions:
* Paths are strings; the filesystem is keyed by normalized absolute
  component lists (what a POSIX path denotes after `os.path.abspath`).
* `os.path.abspath` is lexical normalization against a current working
  directory parameter `cwd`, exactly as in CPython (no symlinks).
* Time is `Int` seconds; SQLite tables are association / row lists.
* The remote model and the subprocess runner are oracles passed as
  parameters; filesystem writes and spawned processes are threaded
  explicitly as state.
-/

namespace Singularity

/-! ### Strings and paths -/

/-- Python `str.startswith`: the candidate is a character-wise prefix. -/
def strStartsWith (s pre : String) : Bool :=
  pre.data.isPrefixOf s.data

/-- Python `str.endswith`: the candidate is a character-wise suffix. -/
def strEndsWith (s suf : String) : Bool :=
  suf.data.isSuffixOf s.data

/-- Python `"x".split("/")` on the character list, keeping empty pieces. -/
def splitSlashAux : List Char → List Char → List (List Char)
  | [], cur => [cur.reverse]
  | c :: rest, cur =>
    if c = '/' then cur.reverse :: splitSlashAux rest []
    else splitSlashAux rest (c :: cur)

/-- Raw path components of a string, as produced by splitting on `/`. -/
def rawComps (s : String) : List String :=
  (splitSlashAux s.data []).map String.mk

/-- The string `s` denotes an absolute path (starts with a slash). -/
def isAbs (s : String) : Bool :=
  strStartsWith s "/"

/-- Python `os.path.join(a, b)` for the cases exercised by the code:
an absolute second argument discards the first. -/
def joinPath (a b : String) : String :=
  if isAbs b then b else a ++ "/" ++ b

/-- Lexical normalization pass of `os.path.normpath` over raw components
of an absolute path: drops empty and `.` pieces, `..` pops (and stays at
the root when nothing is left).  The accumulator holds the output
components in reverse. -/
def normAcc : List String → List String → List String
  | acc, [] => acc.reverse
  | acc, c :: rest =>
    if c = "" || c = "." then normAcc acc rest
    else if c = ".." then normAcc acc.tail rest
    else normAcc (c :: acc) rest

/-- Normalized components of `os.path.abspath(p)` evaluated with current
working directory `cwd` (relative paths are resolved against it). -/
def abspathComps (cwd p : String) : List String :=
  normAcc [] (rawComps (if isAbs p then p else cwd ++ "/" ++ p))

/-- Render a component list back to the normalized path string, as
`os.path.normpath` does (empty list is the root `/`). -/
def slashJoin : List String → String
  | [] => ""
  | c :: rest => "/" ++ c ++ slashJoin rest

/-- The path string of a normalized component list. -/
def pathOfComps (cs : List String) : String :=
  if cs.isEmpty then "/" else slashJoin cs

/-- Python `os.path.abspath(p)` with current working directory `cwd`. -/
def abspath (cwd p : String) : String :=
  pathOfComps (abspathComps cwd p)

/-! ### Filesystem state -/

/-- Filesystem state: file contents and directories, keyed by normalized
absolute component lists. -/
structure FS where
  files : List String → Option String
  dirs : List String → Bool

/-- Python `os.path.exists` at a resolved path. -/
def FS.exists (fs : FS) (cs : List String) : Bool :=
  (fs.files cs).isSome || fs.dirs cs

/-- Writing a file (`open(p, "w")` then `write`): the keyed content is
replaced outright. -/
def FS.writeFile (fs : FS) (cs : List String) (content : String) : FS :=
  { fs with files := fun q => if q = cs then some content else fs.files q }

/-- Python `os.makedirs(d, exist_ok=True)`: `d` and every ancestor of it
become directories.  Ancestors of a component list are its list
prefixes. -/
def FS.makedirs (fs : FS) (cs : List String) : FS :=
  { fs with dirs := fun q => fs.dirs q || decide (q <+: cs) }

/-- A filesystem is well formed when every existing entry has all of its
proper ancestors present as directories (true of every real POSIX
tree). -/
def FS.wf (fs : FS) : Prop :=
  ∀ cs, fs.exists cs = true → ∀ ds, ds <+: cs → ds ≠ cs → fs.dirs ds = true

/-- The filesystem with no files and no directories. -/
def emptyFS : FS :=
  { files := fun _ => none, dirs := fun _ => false }

/-! ### The write tool (src/functions/write_files.py) -/

/-- Containment-violation message of `write_files`. -/
def writeContainErr (file_path : String) : String :=
  "Error: Cannot write to \"" ++ file_path ++ "\" as it is outside the permitted working directory"

/-- Success message of `write_files`. -/
def writeSuccessMsg (file_path content : String) : String :=
  "Successfully wrote to \"" ++ file_path ++ "\" (" ++ toString content.length ++ " characters written)"

/-- Result of the write tool: the returned message and the filesystem
after the call. -/
structure WriteOut where
  msg : String
  fs : FS

/-- Shallow embedding of `write_files(working_dir, file_path, content)`:
join, resolve, string-prefix containment check, conditional `makedirs`
of the parent, then overwrite. -/
def write_files (cwd working_dir file_path content : String) (fs : FS) : WriteOut :=
  let joined_path := joinPath working_dir file_path
  let abs_work_path := abspath cwd working_dir
  let jcs := abspathComps cwd joined_path
  let abs_joined := pathOfComps jcs
  if !(strStartsWith abs_joined abs_work_path) then
    { msg := writeContainErr file_path, fs := fs }
  else
    let fs1 := if fs.exists jcs then fs else fs.makedirs jcs.dropLast
    { msg := writeSuccessMsg file_path content, fs := fs1.writeFile jcs content }

/-! ### The run tool (src/functions/run_python_file.py) -/

/-- Outcome of `subprocess.run(["python3", path] + args, ...)`, supplied
as an oracle: a completed process with captured output and exit code, or
a raised exception (timeout included) carrying its rendered message. -/
inductive ExecResult where
  | completed (stdout stderr : String) (returncode : Int)
  | failed (msg : String)
deriving DecidableEq

/-- Oracle deciding what each spawned subprocess does. -/
abbrev ExecOracle := String → List String → ExecResult

/-- Containment-violation message of `run_python_file`. -/
def runContainErr (file_path : String) : String :=
  "Error: Cannot execute \"" ++ file_path ++ "\" as it is outside the permitted working directory"

/-- Missing-file message of `run_python_file`. -/
def runNotFound (file_path : String) : String :=
  "Error: File \"" ++ file_path ++ "\" not found."

/-- Wrong-extension message of `run_python_file`. -/
def runNotPy (file_path : String) : String :=
  "Error: \"" ++ file_path ++ "\" is not a Python file."

/-- Python `"\n".join(xs)`. -/
def joinNL : List String → String
  | [] => ""
  | [x] => x
  | x :: rest => x ++ "\n" ++ joinNL rest

/-- Result of the run tool: returned message, filesystem, and the
subprocesses spawned by the call (command path and argument list). -/
structure RunOut where
  msg : String
  fs : FS
  procs : List (String × List String)

/-- Shallow embedding of `run_python_file(working_dir, file_path, args)`:
string-prefix containment check, existence and `.py` extension checks,
then one subprocess with captured output; a non-zero exit code is
appended to the report, a raised exception becomes an error string. -/
def run_python_file (exec : ExecOracle) (cwd working_dir file_path : String)
    (args : List String) (fs : FS) : RunOut :=
  let abs_work_path := abspath cwd working_dir
  let jcs := abspathComps cwd (joinPath working_dir file_path)
  let abs_joined := pathOfComps jcs
  if !(strStartsWith abs_joined abs_work_path) then
    { msg := runContainErr file_path, fs := fs, procs := [] }
  else if !(fs.exists jcs) then
    { msg := runNotFound file_path, fs := fs, procs := [] }
  else if !(strEndsWith abs_joined ".py") then
    { msg := runNotPy file_path, fs := fs, procs := [] }
  else
    match exec abs_joined args with
    | .completed out err code =>
      { msg := joinNL (["STDOUT: " ++ out, "STDERR: " ++ err] ++
          (if code ≠ 0 then ["Process exited with code " ++ toString code] else [])),
        fs := fs, procs := [(abs_joined, args)] }
    | .failed emsg =>
      { msg := "Error: executing Python file: " ++ emsg,
        fs := fs, procs := [(abs_joined, args)] }

/-! ### Quota scheduler (src/database.py, api_requests table) -/

/-- Daily per-model request cap. -/
def DAILY_LIMIT : Nat := 20

/-- Name of the primary (lite) model tier. -/
def MODEL_LITE : String := "gemini-2.5-flash-lite"

/-- Name of the secondary (main) model tier. -/
def MODEL_MAIN : String := "gemini-2.5-flash"

/-- The `api_requests` table: one row per (model, utc_date), holding the
request count.  The (model, utc_date) key is UNIQUE. -/
abbrev QuotaDB := List ((String × String) × Nat)

/-- Shallow embedding of `get_request_count(model, utc_date)`: the count
of the matching row, or 0 when no row exists. -/
def get_request_count (db : QuotaDB) (model utc_date : String) : Nat :=
  (List.lookup (model, utc_date) db).getD 0

/-- Shallow embedding of `increment_request_count(model)` at a given UTC
date: SQLite upsert, inserting a count of 1 or incrementing the existing
row. -/
def increment_request_count (db : QuotaDB) (model utc_date : String) : QuotaDB :=
  match List.lookup (model, utc_date) db with
  | some _ => db.map (fun e => if e.1 = (model, utc_date) then (e.1, e.2 + 1) else e)
  | none => db ++ [((model, utc_date), 1)]

/-- Shallow embedding of `get_current_model()` at a given UTC date:
lite while under the daily limit, else main while under the limit, else
lite again as the degraded last resort. -/
def get_current_model (db : QuotaDB) (utc_date : String) : String × String :=
  let lite_count := get_request_count db MODEL_LITE utc_date
  let main_count := get_request_count db MODEL_MAIN utc_date
  if lite_count < DAILY_LIMIT then (MODEL_LITE, "lite")
  else if main_count < DAILY_LIMIT then (MODEL_MAIN, "main")
  else (MODEL_LITE, "lite")

/-! ### Per-user rate limiter (src/database.py, user_rate_limits table) -/

/-- Maximum requests per window. -/
def RATE_LIMIT_REQUESTS : Nat := 4

/-- Window length in seconds. -/
def RATE_WINDOW_SECONDS : Int := 60

/-- Cooldown in seconds added after the window. -/
def RATE_COOLDOWN_SECONDS : Int := 60

/-- The `user_rate_limits` table: rows of (user_id, request_time), time
as seconds. -/
abbrev RateDB := List (String × Int)

/-- The DELETE sweep at the start of every check: rows strictly older
than 120 seconds before now are removed, for every user. -/
def purgeOld (now : Int) (db : RateDB) : RateDB :=
  db.filter (fun r => !(decide (r.2 < now - 120)))

/-- The SELECT of the check: this user's timestamps within the last
window, ordered ascending (run against the purged table). -/
def windowReqs (now : Int) (user_id : String) (db : RateDB) : List Int :=
  List.insertionSort (· ≤ ·)
    (((purgeOld now db).filter
        (fun r => decide (r.1 = user_id) && decide (now - RATE_WINDOW_SECONDS ≤ r.2))).map
      Prod.snd)

/-- Shallow embedding of `check_user_rate_limit(user_id)` at time `now`:
falsy user ids are exempt; otherwise purge old rows, count this user's
requests in the window, and when the cap is reached deny with
`max 0 (oldest + window + cooldown - now)`.  Returns the decision pair
and the table after the purge. -/
def check_user_rate_limit (now : Int) (user_id : Option String) (db : RateDB) :
    (Bool × Int) × RateDB :=
  match user_id with
  | none => ((true, 0), db)
  | some u =>
    if u = "" then ((true, 0), db)
    else
      let db1 := purgeOld now db
      match windowReqs now u db with
      | [] => ((true, 0), db1)
      | oldest :: rest =>
        if RATE_LIMIT_REQUESTS ≤ rest.length + 1 then
          ((false, max 0 (oldest + (RATE_WINDOW_SECONDS + RATE_COOLDOWN_SECONDS) - now)), db1)
        else ((true, 0), db1)

/-- Shallow embedding of `record_user_request(user_id)` at time `now`:
falsy user ids are exempt, otherwise one row is inserted. -/
def record_user_request (now : Int) (user_id : Option String) (db : RateDB) : RateDB :=
  match user_id with
  | none => db
  | some u => if u = "" then db else db ++ [(u, now)]

/-! ### Tool dispatcher (src/app.py, call_function) -/

/-- Argument mapping of a model-requested tool call. -/
inductive ToolArgs where
  | write (file_path content : String)
  | run (file_path : String) (args : List String)
deriving DecidableEq

/-- A model-requested tool call: tool name and arguments. -/
structure FunctionCall where
  name : String
  args : ToolArgs
deriving DecidableEq

/-- The function-response payload embedded in the tool Content: either
a result value or an error value (never both). -/
inductive ToolResponse where
  | result (value : String)
  | error (value : String)
deriving DecidableEq

/-- One `function_response` part of the tool Content returned by the
dispatcher. -/
structure ToolPart where
  name : String
  response : ToolResponse
deriving DecidableEq

/-- Outcome field of the per-call record collected by the loop: the dict
carries either `success: True` or an `error` string. -/
inductive CallOutcome where
  | success
  | failure (msg : String)
deriving DecidableEq

/-- The per-call record (`call_info`) collected into
`function_calls_made`; the unknown-tool record carries no args. -/
structure CallInfo where
  name : String
  args : Option ToolArgs
  outcome : CallOutcome
deriving DecidableEq

/-- Result of one dispatch: the tool Content part, the call record, and
the filesystem / spawned processes after the call. -/
structure CallOut where
  part : ToolPart
  info : CallInfo
  fs : FS
  procs : List (String × List String)

/-- Resolved component list of the canonical sandbox script
`<cwd>/sandbox/sandbox.py` cleared by the dispatcher after a run. -/
def sandboxScript (cwd : String) : List String :=
  abspathComps cwd (joinPath (abspath cwd "./sandbox") "sandbox.py")

/-- Message of the Python TypeError raised when keyword arguments do not
match the dispatched function's signature (text abstracted). -/
def typeErrMsg : String := "TypeError: unexpected keyword arguments"

/-- Shallow embedding of `call_function(function_call_part)`: dispatch on
the tool name over the function map, wrap the returned string as a
success response, and clear `sandbox.py` after a run when it exists; an
exception inside the dispatch (argument mismatch) is caught and returned
as an error response; unknown names give an error response without
touching anything. -/
def call_function (exec : ExecOracle) (cwd : String) (fc : FunctionCall) (fs : FS) : CallOut :=
  let working_dir := abspath cwd "./sandbox"
  if fc.name = "run_python_file" then
    match fc.args with
    | .run file_path args =>
      let r := run_python_file exec cwd working_dir file_path args fs
      let spc := sandboxScript cwd
      let fs2 := if r.fs.exists spc then r.fs.writeFile spc "" else r.fs
      { part := ⟨fc.name, .result r.msg⟩,
        info := ⟨fc.name, some fc.args, .success⟩, fs := fs2, procs := r.procs }
    | .write _ _ =>
      { part := ⟨fc.name, .error typeErrMsg⟩,
        info := ⟨fc.name, some fc.args, .failure typeErrMsg⟩, fs := fs, procs := [] }
  else if fc.name = "write_files" then
    match fc.args with
    | .write file_path content =>
      let r := write_files cwd working_dir file_path content fs
      { part := ⟨fc.name, .result r.msg⟩,
        info := ⟨fc.name, some fc.args, .success⟩, fs := r.fs, procs := [] }
    | .run _ _ =>
      { part := ⟨fc.name, .error typeErrMsg⟩,
        info := ⟨fc.name, some fc.args, .failure typeErrMsg⟩, fs := fs, procs := [] }
  else
    { part := ⟨fc.name, .error ("Unknown function: " ++ fc.name)⟩,
      info := ⟨fc.name, none, .failure "Unknown function"⟩, fs := fs, procs := [] }

/-! ### Orchestrator loop (src/app.py, process_chat) -/

/-- One turn of a session's history: a user text turn, a committed model
text turn, a model tool-call turn, or the aggregated tool-response turn
(sent back with role user, as the code does). -/
inductive Turn where
  | user (text : String)
  | model (text : String)
  | modelCalls (calls : List FunctionCall)
  | toolResponses (parts : List ToolPart)
deriving DecidableEq

/-- The process-wide `sessions` dict: session id to turn history. -/
abbrev SessionStore := String → Option (List Turn)

/-- Store update at one key. -/
def updateStore (s : SessionStore) (sid : String) (v : List Turn) : SessionStore :=
  fun k => if k = sid then some v else s k

/-- The turn history of a session; an absent session reads as the empty
history. -/
def turnHistory (s : SessionStore) (sid : String) : List Turn :=
  (s sid).getD []

/-- One answer of the remote model: an invocation failure (exception
from `generate_content`), or a reply carrying the requested tool calls
and the optional text. -/
inductive ModelOutcome where
  | fail (msg : String)
  | reply (functionCalls : List FunctionCall) (text : Option String)
deriving DecidableEq

/-- Oracle giving the model's answer to the i-th round-trip of the
request. -/
abbrev ModelOracle := Nat → ModelOutcome

/-- Python `str.strip()`: whitespace removed from both ends. -/
def pyStrip (s : String) : String :=
  ⟨((s.data.dropWhile Char.isWhitespace).reverse.dropWhile Char.isWhitespace).reverse⟩

/-- Python truthiness of `response.text is not None and
response.text.strip()`. -/
def hasTextResponse : Option String → Bool
  | none => false
  | some t => !(pyStrip t = "")

/-- Shared mutable state crossed by one chat request: session store,
quota counters, sandbox filesystem, and the spawned-process log. -/
structure AppState where
  sessions : SessionStore
  quota : QuotaDB
  fs : FS
  procs : List (String × List String)

/-- How the loop exited: final text (Done), model-invocation failure
(Aborted), or bound exhaustion (Exhausted). -/
inductive ExitKind where
  | done
  | aborted
  | exhausted
deriving DecidableEq

/-- Result of `process_chat`: returned text, collected tool-call
records, shared state afterwards, number of remote-model round-trips
performed, and the exit path taken. -/
structure ChatResult where
  text : String
  calls : List CallInfo
  state : AppState
  roundTrips : Nat
  exit : ExitKind

/-- The fixed apology returned when the loop bound is exhausted. -/
def apologyMsg : String := "I apologize, but I wasn't able to complete the request."

/-- The per-iteration tool phase: run each requested call through the
dispatcher in order, collecting the response parts and the call
records. -/
def processCalls (exec : ExecOracle) (cwd : String) :
    List FunctionCall → List CallInfo → AppState → List ToolPart × List CallInfo × AppState
  | [], calls, st => ([], calls, st)
  | fc :: rest, calls, st =>
    let r := call_function exec cwd fc st.fs
    let st1 := { st with fs := r.fs, procs := st.procs ++ r.procs }
    let pc := processCalls exec cwd rest (calls ++ [r.info]) st1
    (r.part :: pc.1, pc.2.1, pc.2.2)

/-- The `while count <= 15` loop of `process_chat`, with the remaining
iteration budget as fuel.  Each iteration picks the model tier,
increments its counter, asks the model oracle, and either aborts on
failure, commits and returns on a text-only reply, or runs the tool
phase and continues. -/
def chatLoop (exec : ExecOracle) (oracle : ModelOracle) (today cwd message session_id : String) :
    Nat → List Turn → List CallInfo → AppState → Nat → ChatResult
  | 0, _, calls, st, rt =>
    { text := apologyMsg, calls := calls, state := st, roundTrips := rt, exit := .exhausted }
  | fuel + 1, messages, calls, st, rt =>
    let current_model := (get_current_model st.quota today).1
    let st1 := { st with quota := increment_request_count st.quota current_model today }
    match oracle rt with
    | .fail msg =>
      { text := "Error: " ++ msg, calls := calls, state := st1, roundTrips := rt + 1,
        exit := .aborted }
    | .reply fcs text =>
      if fcs.isEmpty && hasTextResponse text then
        match text with
        | some t =>
          let committed := turnHistory st1.sessions session_id ++ [Turn.user message, Turn.model t]
          { text := t, calls := calls,
            state := { st1 with sessions := updateStore st1.sessions session_id committed },
            roundTrips := rt + 1, exit := .done }
        | none =>
          chatLoop exec oracle today cwd message session_id fuel messages calls st1 (rt + 1)
      else
        if !fcs.isEmpty then
          let messages1 := messages ++ [Turn.modelCalls fcs]
          let pc := processCalls exec cwd fcs calls st1
          let messages2 :=
            if pc.1.isEmpty then messages1 else messages1 ++ [Turn.toolResponses pc.1]
          chatLoop exec oracle today cwd message session_id fuel messages2 pc.2.1 pc.2.2 (rt + 1)
        else
          chatLoop exec oracle today cwd message session_id fuel messages calls st1 (rt + 1)

/-- The session-initialization step at the top of `process_chat`: an
unseen session id gets an empty entry. -/
def initSession (st : AppState) (session_id : String) : AppState :=
  if (st.sessions session_id).isNone then
    { st with sessions := updateStore st.sessions session_id [] }
  else st

/-- Shallow embedding of `process_chat(message, session_id)`: create the
session entry when unseen, build the working history (stored turns plus
the new user message), and run the bounded loop. -/
def process_chat (exec : ExecOracle) (oracle : ModelOracle) (today cwd : String)
    (message session_id : String) (st : AppState) : ChatResult :=
  let st0 := initSession st session_id
  let messages := turnHistory st0.sessions session_id ++ [Turn.user message]
  chatLoop exec oracle today cwd message session_id 15 messages [] st0 0

/-! ### Helper lemmas: paths and containment -/

theorem slashJoin_data (xs ys : List String) :
    (slashJoin (xs ++ ys)).data = (slashJoin xs).data ++ (slashJoin ys).data := by
  induction xs with
  | nil => rfl
  | cons c cs ih => simp [slashJoin, String.data_append, ih, List.append_assoc]

theorem pathOfComps_prefix_data (as rest : List String) :
    (pathOfComps as).data <+: (pathOfComps (as ++ rest)).data := by
  cases as with
  | nil =>
    cases rest with
    | nil => exact List.prefix_refl _
    | cons c cs =>
      show ("/" : String).data <+: (slashJoin (c :: cs)).data
      simp only [slashJoin, String.data_append]
      exact ⟨c.data ++ (slashJoin cs).data, by simp⟩
  | cons a as' =>
    show (slashJoin (a :: as')).data <+: (slashJoin ((a :: as') ++ rest)).data
    rw [slashJoin_data]
    exact List.prefix_append _ _

theorem pathOfComps_startsWith (as rest : List String) :
    strStartsWith (pathOfComps (as ++ rest)) (pathOfComps as) = true := by
  rw [strStartsWith, List.isPrefixOf_iff_prefix]
  exact pathOfComps_prefix_data as rest

/-- When the resolved path fails the string-prefix check, `write_files`
returns the containment error and leaves the filesystem untouched. -/
theorem write_files_not_contained (cwd wd fp c : String) (fs : FS)
    (h : strStartsWith (abspath cwd (joinPath wd fp)) (abspath cwd wd) = false) :
    write_files cwd wd fp c fs = ⟨writeContainErr fp, fs⟩ := by
  rw [abspath] at h
  simp [write_files, h]

/-- When the resolved path fails the string-prefix check,
`run_python_file` returns the containment error, leaves the filesystem
untouched, and spawns nothing. -/
theorem run_python_file_not_contained (exec : ExecOracle) (cwd wd fp : String)
    (args : List String) (fs : FS)
    (h : strStartsWith (abspath cwd (joinPath wd fp)) (abspath cwd wd) = false) :
    run_python_file exec cwd wd fp args fs = ⟨runContainErr fp, fs, []⟩ := by
  rw [abspath] at h
  simp [run_python_file, h]

/-- When the resolved path passes the string-prefix check, `write_files`
reports success and stores exactly the given content at the resolved
path. -/
theorem write_files_contained (cwd wd fp c : String) (fs : FS)
    (h : strStartsWith (abspath cwd (joinPath wd fp)) (abspath cwd wd) = true) :
    (write_files cwd wd fp c fs).msg = writeSuccessMsg fp c ∧
      (write_files cwd wd fp c fs).fs.files (abspathComps cwd (joinPath wd fp)) = some c := by
  rw [abspath] at h
  simp [write_files, h, FS.writeFile]

/-! ### Claims C1 and C2: containment -/

/-- Claim C1 (amended): for every relative path argument whose resolved
absolute path fails the string-prefix containment check against the
absolute sandbox root, both the write tool and the run tool return their
containment-violation error string and perform no filesystem or process
side effect. -/
theorem claim_C1 (exec : ExecOracle) (cwd wd fp c : String) (args : List String) (fs : FS)
    (h : strStartsWith (abspath cwd (joinPath wd fp)) (abspath cwd wd) = false) :
    write_files cwd wd fp c fs = ⟨writeContainErr fp, fs⟩ ∧
      run_python_file exec cwd wd fp args fs = ⟨runContainErr fp, fs, []⟩ :=
  ⟨write_files_not_contained cwd wd fp c fs h,
   run_python_file_not_contained exec cwd wd fp args fs h⟩

/-- Witness for claim C1 at the traversal path `../../etc/passwd` under
root `/a/sandbox`: both tools refuse and nothing happens. -/
theorem claim_C1_witness :
    write_files "/" "/a/sandbox" "../../etc/passwd" "x" emptyFS =
        ⟨writeContainErr "../../etc/passwd", emptyFS⟩ ∧
      run_python_file (fun _ _ => .completed "" "" 0) "/" "/a/sandbox" "../../etc/passwd" []
          emptyFS =
        ⟨runContainErr "../../etc/passwd", emptyFS, []⟩ :=
  claim_C1 (fun _ _ => .completed "" "" 0) "/" "/a/sandbox" "../../etc/passwd" "x" [] emptyFS
    (by decide)

/-- Counterexample to claim C1 as stated: the relative path
`../sandboxX/pwn.py` contains a traversal segment and resolves to
`/a/sandboxX/pwn.py`, outside the sandbox root `/a/sandbox`, yet the
write tool reports success and creates the file there, and the run tool
then spawns a subprocess on it; neither returns the containment
error. -/
theorem claim_C1_counterexample :
    (".." ∈ rawComps "../sandboxX/pwn.py") ∧
      ¬(abspathComps "/" "/a/sandbox" <+:
          abspathComps "/" (joinPath "/a/sandbox" "../sandboxX/pwn.py")) ∧
      (write_files "/" "/a/sandbox" "../sandboxX/pwn.py" "print(1)" emptyFS).msg =
        writeSuccessMsg "../sandboxX/pwn.py" "print(1)" ∧
      (write_files "/" "/a/sandbox" "../sandboxX/pwn.py" "print(1)" emptyFS).msg ≠
        writeContainErr "../sandboxX/pwn.py" ∧
      (write_files "/" "/a/sandbox" "../sandboxX/pwn.py" "print(1)" emptyFS).fs.files
          ["a", "sandboxX", "pwn.py"] = some "print(1)" ∧
      (run_python_file (fun _ _ => .completed "" "" 0) "/" "/a/sandbox" "../sandboxX/pwn.py" []
            (write_files "/" "/a/sandbox" "../sandboxX/pwn.py" "print(1)" emptyFS).fs).procs =
        [("/a/sandboxX/pwn.py", [])] ∧
      (run_python_file (fun _ _ => .completed "" "" 0) "/" "/a/sandbox" "../sandboxX/pwn.py" []
            (write_files "/" "/a/sandbox" "../sandboxX/pwn.py" "print(1)" emptyFS).fs).msg ≠
        runContainErr "../sandboxX/pwn.py" := by
  decide

/-- Claim C2: the containment check of both tools passes exactly when
the resolved absolute path string starts with the absolute sandbox-root
string; when it fails both tools refuse with no side effect, when it
passes the write proceeds; consequently a path resolving into the
sibling directory `/a/sandboxX` of root `/a/sandbox` passes the check
and the operations proceed outside the root. -/
theorem claim_C2 :
    (∀ (cwd wd fp c : String) (args : List String) (fs : FS) (exec : ExecOracle),
        strStartsWith (abspath cwd (joinPath wd fp)) (abspath cwd wd) = false →
          write_files cwd wd fp c fs = ⟨writeContainErr fp, fs⟩ ∧
            run_python_file exec cwd wd fp args fs = ⟨runContainErr fp, fs, []⟩) ∧
      (∀ (cwd wd fp c : String) (fs : FS),
          strStartsWith (abspath cwd (joinPath wd fp)) (abspath cwd wd) = true →
            (write_files cwd wd fp c fs).msg = writeSuccessMsg fp c ∧
              (write_files cwd wd fp c fs).fs.files (abspathComps cwd (joinPath wd fp)) =
                some c) ∧
      (abspath "/" (joinPath "/a/sandbox" "../sandboxX/f.py") = "/a/sandboxX/f.py" ∧
        strStartsWith "/a/sandboxX/f.py" "/a/sandbox" = true ∧
        ¬(abspathComps "/" "/a/sandbox" <+:
            abspathComps "/" (joinPath "/a/sandbox" "../sandboxX/f.py")) ∧
        (write_files "/" "/a/sandbox" "../sandboxX/f.py" "c0" emptyFS).fs.files
            ["a", "sandboxX", "f.py"] = some "c0" ∧
        (run_python_file (fun _ _ => .completed "" "" 0) "/" "/a/sandbox" "../sandboxX/f.py" []
              (write_files "/" "/a/sandbox" "../sandboxX/f.py" "c0" emptyFS).fs).procs =
          [("/a/sandboxX/f.py", [])]) :=
  ⟨fun cwd wd fp c args fs exec h =>
      ⟨write_files_not_contained cwd wd fp c fs h,
       run_python_file_not_contained exec cwd wd fp args fs h⟩,
   fun cwd wd fp c fs h => write_files_contained cwd wd fp c fs h,
   by decide⟩

/-- Witness for claim C2: a blocked traversal write and an allowed
in-root write, both via the general parts of the claim. -/
theorem claim_C2_witness :
    (write_files "/" "/a/sandbox" "../../etc/shadow" "x" emptyFS =
        ⟨writeContainErr "../../etc/shadow", emptyFS⟩ ∧
      run_python_file (fun _ _ => .completed "" "" 0) "/" "/a/sandbox" "../../etc/shadow" []
          emptyFS =
        ⟨runContainErr "../../etc/shadow", emptyFS, []⟩) ∧
      ((write_files "/" "/a/sandbox" "notes.txt" "hello" emptyFS).msg =
          writeSuccessMsg "notes.txt" "hello" ∧
        (write_files "/" "/a/sandbox" "notes.txt" "hello" emptyFS).fs.files
            ["a", "sandbox", "notes.txt"] = some "hello") := by
  refine ⟨claim_C2.1 "/" "/a/sandbox" "../../etc/shadow" "x" [] emptyFS
      (fun _ _ => .completed "" "" 0) (by decide), ?_⟩
  have h := claim_C2.2.1 "/" "/a/sandbox" "notes.txt" "hello" emptyFS (by decide)
  rw [show abspathComps "/" (joinPath "/a/sandbox" "notes.txt") =
      ["a", "sandbox", "notes.txt"] from by decide] at h
  exact h

/-! ### Claims C9 and C10: write round-trip and script clearing -/

theorem proper_prefix_dropLast {α : Type} (ds cs : List α) (h : ds <+: cs) (hne : ds ≠ cs) :
    ds <+: cs.dropLast := by
  rw [List.dropLast_eq_take, List.prefix_take_iff]
  refine ⟨h, ?_⟩
  have hlen := h.length_le
  rcases Nat.lt_or_ge ds.length cs.length with hlt | hge
  · omega
  · exact absurd (h.eq_of_length (le_antisymm hlen hge)) hne

/-- Claim C9: on a well-formed filesystem, for every path resolving
under the sandbox root, the write tool reports success with the length
of the content, stores exactly the content at the resolved path
(overwrite, not append), and every proper ancestor of the resolved path
is a directory afterwards. -/
theorem claim_C9 (cwd wd fp c : String) (fs : FS) (hwf : FS.wf fs)
    (h : abspathComps cwd wd <+: abspathComps cwd (joinPath wd fp)) :
    (write_files cwd wd fp c fs).msg = writeSuccessMsg fp c ∧
      (write_files cwd wd fp c fs).fs.files (abspathComps cwd (joinPath wd fp)) = some c ∧
      (∀ ds, ds <+: abspathComps cwd (joinPath wd fp) →
        ds ≠ abspathComps cwd (joinPath wd fp) →
          (write_files cwd wd fp c fs).fs.dirs ds = true) := by
  obtain ⟨rest, hr⟩ := h
  have hsw : strStartsWith (pathOfComps (abspathComps cwd (joinPath wd fp)))
      (abspath cwd wd) = true := by
    rw [abspath, ← hr]
    exact pathOfComps_startsWith _ _
  refine ⟨?_, ?_, ?_⟩
  · simp [write_files, hsw]
  · simp [write_files, hsw, FS.writeFile]
  · intro ds hds hne
    simp only [write_files, hsw, Bool.not_true, Bool.false_eq_true, if_false, FS.writeFile]
    by_cases hex : fs.exists (abspathComps cwd (joinPath wd fp)) = true
    · simp only [hex, if_true]
      exact hwf _ hex ds hds hne
    · simp only [Bool.not_eq_true] at hex
      simp only [hex, Bool.false_eq_true, if_false, FS.makedirs, Bool.or_eq_true,
        decide_eq_true_eq]
      exact Or.inr (proper_prefix_dropLast ds _ hds hne)

/-- Witness for claim C9: writing `sub/dir/f.txt` under `/a/sandbox`
into the empty filesystem. -/
theorem claim_C9_witness :
    (write_files "/" "/a/sandbox" "sub/dir/f.txt" "hello" emptyFS).msg =
        writeSuccessMsg "sub/dir/f.txt" "hello" ∧
      (write_files "/" "/a/sandbox" "sub/dir/f.txt" "hello" emptyFS).fs.files
          (abspathComps "/" (joinPath "/a/sandbox" "sub/dir/f.txt")) = some "hello" ∧
      (∀ ds, ds <+: abspathComps "/" (joinPath "/a/sandbox" "sub/dir/f.txt") →
        ds ≠ abspathComps "/" (joinPath "/a/sandbox" "sub/dir/f.txt") →
          (write_files "/" "/a/sandbox" "sub/dir/f.txt" "hello" emptyFS).fs.dirs ds = true) :=
  claim_C9 "/" "/a/sandbox" "sub/dir/f.txt" "hello" emptyFS (fun _ hex => nomatch hex)
    (by decide)

/-- After any run-tool dispatch, the run tool itself has not changed the
filesystem. -/
theorem run_python_file_fs (exec : ExecOracle) (cwd wd fp : String) (args : List String)
    (fs : FS) : (run_python_file exec cwd wd fp args fs).fs = fs := by
  unfold run_python_file
  dsimp only
  repeat' split
  all_goals rfl

/-- Claim C10: every dispatch of the run tool clears the canonical
script `sandbox.py` to the empty string when it exists, touches no other
file, and changes no directory — for every subprocess outcome, exit code
included. -/
theorem claim_C10 (exec : ExecOracle) (cwd fp : String) (args : List String) (fs : FS) :
    (fs.exists (sandboxScript cwd) = true →
      (call_function exec cwd ⟨"run_python_file", .run fp args⟩ fs).fs.files
          (sandboxScript cwd) = some "") ∧
      (∀ q, q ≠ sandboxScript cwd →
        (call_function exec cwd ⟨"run_python_file", .run fp args⟩ fs).fs.files q =
          fs.files q) ∧
      (∀ q, (call_function exec cwd ⟨"run_python_file", .run fp args⟩ fs).fs.dirs q =
        fs.dirs q) := by
  have hfs := run_python_file_fs exec cwd (abspath cwd "./sandbox") fp args fs
  refine ⟨fun hex => ?_, fun q hq => ?_, fun q => ?_⟩
  · simp [call_function, hfs, hex, FS.writeFile]
  · by_cases hex : fs.exists (sandboxScript cwd) = true <;>
      simp [call_function, hfs, hex, FS.writeFile, hq]
  · by_cases hex : fs.exists (sandboxScript cwd) = true <;>
      simp [call_function, hfs, hex, FS.writeFile]

/-- Witness for claim C10: running `sandbox.py` clears its stored
content. -/
theorem claim_C10_witness :
    ((call_function (fun _ _ => .completed "2\n" "" 0) "/"
          ⟨"run_python_file", .run "sandbox.py" []⟩
          { files := fun cs => if cs = ["sandbox", "sandbox.py"] then some "print(1+1)" else none,
            dirs := fun _ => false }).fs.files
        (sandboxScript "/") = some "") ∧
      (∀ q, q ≠ sandboxScript "/" →
        (call_function (fun _ _ => .completed "2\n" "" 0) "/"
              ⟨"run_python_file", .run "sandbox.py" []⟩
              { files := fun cs =>
                  if cs = ["sandbox", "sandbox.py"] then some "print(1+1)" else none,
                dirs := fun _ => false }).fs.files q =
          (if q = ["sandbox", "sandbox.py"] then some "print(1+1)" else none)) := by
  have h := claim_C10 (fun _ _ => .completed "2\n" "" 0) "/" "sandbox.py" []
    { files := fun cs => if cs = ["sandbox", "sandbox.py"] then some "print(1+1)" else none,
      dirs := fun _ => false }
  exact ⟨h.1 (by decide), h.2.1⟩

/-! ### Claim C3: quota-based model selection -/

/-- Claim C3: while the lite counter for the date is below 20 (absence
of a row counting as zero) the selector returns lite; once lite is at
the limit it returns main while main is below 20; once both are at the
limit it returns lite again. -/
theorem claim_C3 (db : QuotaDB) (d : String) :
    (get_request_count db MODEL_LITE d < DAILY_LIMIT →
        get_current_model db d = (MODEL_LITE, "lite")) ∧
      (DAILY_LIMIT ≤ get_request_count db MODEL_LITE d →
        get_request_count db MODEL_MAIN d < DAILY_LIMIT →
          get_current_model db d = (MODEL_MAIN, "main")) ∧
      (DAILY_LIMIT ≤ get_request_count db MODEL_LITE d →
        DAILY_LIMIT ≤ get_request_count db MODEL_MAIN d →
          get_current_model db d = (MODEL_LITE, "lite")) ∧
      (List.lookup (MODEL_LITE, d) db = none →
        get_current_model db d = (MODEL_LITE, "lite")) := by
  refine ⟨fun h1 => ?_, fun h1 h2 => ?_, fun h1 h2 => ?_, fun h0 => ?_⟩
  · simp [get_current_model, h1]
  · simp [get_current_model, Nat.not_lt.mpr h1, h2]
  · simp [get_current_model, Nat.not_lt.mpr h1, Nat.not_lt.mpr h2]
  · have h1 : get_request_count db MODEL_LITE d < DAILY_LIMIT := by
      simp [get_request_count, h0, DAILY_LIMIT]
    simp [get_current_model, h1]

/-- Witness for claim C3: concrete counter tables for each regime. -/
theorem claim_C3_witness :
    get_current_model [((MODEL_LITE, "d"), 7)] "d" = (MODEL_LITE, "lite") ∧
      get_current_model [((MODEL_LITE, "d"), 20)] "d" = (MODEL_MAIN, "main") ∧
      get_current_model [((MODEL_LITE, "d"), 20), ((MODEL_MAIN, "d"), 20)] "d" =
        (MODEL_LITE, "lite") ∧
      get_current_model [((MODEL_MAIN, "e"), 5)] "d" = (MODEL_LITE, "lite") := by
  refine ⟨(claim_C3 [((MODEL_LITE, "d"), 7)] "d").1 (by decide),
    (claim_C3 [((MODEL_LITE, "d"), 20)] "d").2.1 (by decide) (by decide),
    (claim_C3 [((MODEL_LITE, "d"), 20), ((MODEL_MAIN, "d"), 20)] "d").2.2.1 (by decide)
      (by decide),
    (claim_C3 [((MODEL_MAIN, "e"), 5)] "d").2.2.2 (by decide)⟩

/-! ### Claims C4 and C5: per-user rate limiting -/

/-- For a resolved, non-empty user id, the table after a check is
exactly the purged table. -/
theorem check_user_rate_limit_db (now : Int) (u : String) (db : RateDB) (hu : u ≠ "") :
    (check_user_rate_limit now (some u) db).2 = purgeOld now db := by
  simp only [check_user_rate_limit, hu, if_false]
  split
  · rfl
  · split <;> rfl

/-- Claim C4: for a user with a resolved identity, a check with fewer
than 4 timestamps in the last 60 seconds is allowed with wait 0; a check
with 4 or more is denied with wait `max 0 (oldest + 60 + 60 - now)`
where `oldest` is the minimum of the window; the reported wait is always
non-negative. -/
theorem claim_C4 (now : Int) (u : String) (db : RateDB) (hu : u ≠ "") :
    ((windowReqs now u db).length < RATE_LIMIT_REQUESTS →
        (check_user_rate_limit now (some u) db).1 = (true, 0)) ∧
      (∀ t rest, windowReqs now u db = t :: rest →
        RATE_LIMIT_REQUESTS ≤ (windowReqs now u db).length →
          (check_user_rate_limit now (some u) db).1 =
              (false, max 0 (t + (RATE_WINDOW_SECONDS + RATE_COOLDOWN_SECONDS) - now)) ∧
            (∀ x ∈ windowReqs now u db, t ≤ x)) ∧
      0 ≤ ((check_user_rate_limit now (some u) db).1).2 := by
  refine ⟨fun hlt => ?_, fun t rest hw hge => ⟨?_, ?_⟩, ?_⟩
  · simp only [check_user_rate_limit, hu, if_false]
    split
    · rfl
    · rename_i oldest rest hw
      rw [hw] at hlt
      simp only [List.length_cons] at hlt
      rw [if_neg (by omega)]
  · simp only [check_user_rate_limit, hu, if_false]
    split
    · rename_i hnil
      rw [hnil] at hw
      exact absurd hw (by simp)
    · rename_i oldest rest2 hw2
      rw [hw] at hw2
      obtain ⟨rfl, rfl⟩ : t = oldest ∧ rest = rest2 := by
        injection hw2 with h1 h2
        exact ⟨h1, h2⟩
      rw [hw, List.length_cons] at hge
      rw [if_pos (by omega)]
  · intro x hx
    have hs : List.Sorted (· ≤ ·) (windowReqs now u db) :=
      List.sorted_insertionSort _ _
    rw [hw] at hs hx
    rcases List.mem_cons.mp hx with rfl | hx2
    · exact le_refl x
    · exact List.rel_of_sorted_cons hs x hx2
  · simp only [check_user_rate_limit, hu, if_false]
    split
    · simp
    · split
      · simp [le_max_left]
      · simp

/-- Witness for claim C4: three requests in the window are allowed, four
are denied with the computed wait. -/
theorem claim_C4_witness :
    (check_user_rate_limit 1000 (some "bob") [("bob", 950), ("bob", 960), ("bob", 970)]).1 =
        (true, 0) ∧
      (check_user_rate_limit 1000 (some "bob")
            [("bob", 950), ("bob", 960), ("bob", 970), ("bob", 980)]).1 =
        (false, max 0 (950 + (RATE_WINDOW_SECONDS + RATE_COOLDOWN_SECONDS) - 1000)) := by
  refine ⟨(claim_C4 1000 "bob" [("bob", 950), ("bob", 960), ("bob", 970)] (by decide)).1
      (by decide), ?_⟩
  have h := (claim_C4 1000 "bob" [("bob", 950), ("bob", 960), ("bob", 970), ("bob", 980)]
      (by decide)).2.1 950 [960, 970, 980] (by decide) (by decide)
  exact h.1

/-- Claim C5 (amended): a check for a resolved user retains in the
shared table exactly the rows (of every user, not only the checked one)
whose timestamp is at least `now - 120`; strictly older rows are purged,
regardless of which user they belong to. -/
theorem claim_C5 (now : Int) (u : String) (db : RateDB) (hu : u ≠ "") :
    ∀ r : String × Int,
      r ∈ (check_user_rate_limit now (some u) db).2 ↔ r ∈ db ∧ now - 120 ≤ r.2 := by
  intro r
  rw [check_user_rate_limit_db now u db hu]
  simp [purgeOld, List.mem_filter, Int.not_lt]

/-- Witness for claim C5 (amended): a fresh row survives the purge of a
stale one. -/
theorem claim_C5_witness :
    (("alice", (950 : Int)) ∈
        (check_user_rate_limit 1000 (some "carol") [("alice", 950), ("bob", 700)]).2) ∧
      ¬(("bob", (700 : Int)) ∈
        (check_user_rate_limit 1000 (some "carol") [("alice", 950), ("bob", 700)]).2) := by
  constructor
  · exact (claim_C5 1000 "carol" [("alice", 950), ("bob", 700)] (by decide)
      ("alice", 950)).mpr (by decide)
  · intro hmem
    have h := (claim_C5 1000 "carol" [("alice", 950), ("bob", 700)] (by decide)
      ("bob", 700)).mp hmem
    omega

/-- Counterexample to claim C5 as stated: at `now = 1000` a check for
`carol` deletes the rows of `alice` and `bob` timestamped 850, although
850 is within the claimed `2W + C = 180` second horizon
(`1000 - 180 = 820 ≤ 850`) and although neither row belongs to the
checked user. -/
theorem claim_C5_counterexample :
    (check_user_rate_limit 1000 (some "carol") [("alice", 850), ("bob", 850)]).2 = [] ∧
      (1000 - 180 : Int) ≤ 850 ∧
      ("alice" : String) ≠ "carol" ∧ ("bob" : String) ≠ "carol" ∧
      (("alice", (850 : Int)) ∈ [(("alice" : String), (850 : Int)), ("bob", 850)]) := by
  decide

/-! ### Helper lemmas: the orchestrator loop -/

/-- The tool phase touches only the filesystem and the process log: the
session store is unchanged. -/
theorem processCalls_sessions (exec : ExecOracle) (cwd : String) :
    ∀ (fcs : List FunctionCall) (calls : List CallInfo) (st : AppState),
      (processCalls exec cwd fcs calls st).2.2.sessions = st.sessions := by
  intro fcs
  induction fcs with
  | nil => intro calls st; rfl
  | cons fc rest ih =>
    intro calls st
    simp only [processCalls]
    exact ih _ _

/-- Induction invariant of the `while count <= 15` loop: the round-trip
bound, how the session store can change on each exit kind, the exhausted
and aborted return values, and that a model failure among the consumed
oracle answers aborts the loop at the first failure. -/
theorem chatLoop_spec (exec : ExecOracle) (oracle : ModelOracle)
    (today cwd message sid : String) :
    ∀ (fuel : Nat) (ms : List Turn) (cs : List CallInfo) (st : AppState) (rt : Nat),
      (chatLoop exec oracle today cwd message sid fuel ms cs st rt).roundTrips ≤ rt + fuel ∧
        ((chatLoop exec oracle today cwd message sid fuel ms cs st rt).exit ≠ .done →
          (chatLoop exec oracle today cwd message sid fuel ms cs st rt).state.sessions =
            st.sessions) ∧
        ((chatLoop exec oracle today cwd message sid fuel ms cs st rt).exit = .done →
          (chatLoop exec oracle today cwd message sid fuel ms cs st rt).state.sessions =
              updateStore st.sessions sid
                (turnHistory st.sessions sid ++
                  [Turn.user message,
                    Turn.model (chatLoop exec oracle today cwd message sid fuel ms cs st rt).text]) ∧
            pyStrip (chatLoop exec oracle today cwd message sid fuel ms cs st rt).text ≠ "") ∧
        ((chatLoop exec oracle today cwd message sid fuel ms cs st rt).exit = .exhausted →
          (chatLoop exec oracle today cwd message sid fuel ms cs st rt).text = apologyMsg) ∧
        ((chatLoop exec oracle today cwd message sid fuel ms cs st rt).exit = .aborted →
          ∃ emsg,
            oracle ((chatLoop exec oracle today cwd message sid fuel ms cs st rt).roundTrips - 1) =
                .fail emsg ∧
              (chatLoop exec oracle today cwd message sid fuel ms cs st rt).text =
                "Error: " ++ emsg) ∧
        (∀ i emsg, rt ≤ i →
          i + 1 < (chatLoop exec oracle today cwd message sid fuel ms cs st rt).roundTrips →
            oracle i ≠ .fail emsg) ∧
        (∀ i emsg, rt ≤ i →
          i < (chatLoop exec oracle today cwd message sid fuel ms cs st rt).roundTrips →
            oracle i = .fail emsg →
              (chatLoop exec oracle today cwd message sid fuel ms cs st rt).exit = .aborted) := by
  intro fuel
  induction fuel with
  | zero =>
    intro ms cs st rt
    dsimp only [chatLoop]
    refine ⟨Nat.le_refl _, fun _ => rfl, ?_, fun _ => rfl, ?_, ?_, ?_⟩
    · intro h
      exact nomatch h
    · intro h
      exact nomatch h
    · intro i emsg hge hlt
      exact absurd hlt (by omega)
    · intro i emsg hge hlt _
      exact absurd hlt (by omega)
  | succ fuel ih =>
    intro ms cs st rt
    cases horacle : oracle rt with
    | fail emsg =>
      dsimp only [chatLoop]
      rw [horacle]
      dsimp only
      refine ⟨?_, fun _ => rfl, ?_, ?_, ?_, ?_, ?_⟩
      · omega
      · intro h
        exact nomatch h
      · intro h
        exact nomatch h
      · intro _
        exact ⟨emsg, by simpa using horacle, rfl⟩
      · intro i m' hge hlt
        exact absurd hlt (by omega)
      · intro i m' hge hlt _
        rfl
    | reply fcs text =>
      by_cases hcond : (fcs.isEmpty && hasTextResponse text) = true
      · cases text with
        | none => exact absurd hcond (by simp [hasTextResponse])
        | some t =>
          obtain ⟨hfc, ht⟩ : fcs.isEmpty = true ∧ hasTextResponse (some t) = true := by
            rw [Bool.and_eq_true] at hcond
            exact hcond
          dsimp only [chatLoop]
          rw [horacle]
          dsimp only
          rw [if_pos hcond]
          dsimp only
          refine ⟨?_, ?_, ?_, ?_, ?_, ?_, ?_⟩
          · omega
          · intro h
            exact absurd rfl h
          · intro _
            exact ⟨rfl, by simpa [hasTextResponse] using ht⟩
          · intro h
            exact nomatch h
          · intro h
            exact nomatch h
          · intro i m' hge hlt
            exact absurd hlt (by omega)
          · intro i m' hge hlt hfail
            have hieq : i = rt := by omega
            rw [hieq, horacle] at hfail
            exact nomatch hfail
      · dsimp only [chatLoop]
        rw [horacle]
        dsimp only
        rw [if_neg hcond]
        by_cases hfc : fcs.isEmpty = true
        · -- neither branch taken: plain continue with the next iteration
          rw [hfc, Bool.not_true, if_neg Bool.false_ne_true]
          refine ⟨?_, ?_, ?_, ?_, ?_, ?_, ?_⟩
          · exact le_trans (ih _ _ _ _).1 (by omega)
          · intro h
            exact (ih _ _ _ _).2.1 h
          · intro h
            exact (ih _ _ _ _).2.2.1 h
          · intro h
            exact (ih _ _ _ _).2.2.2.1 h
          · intro h
            exact (ih _ _ _ _).2.2.2.2.1 h
          · intro i m' hge hlt
            rcases Nat.eq_or_lt_of_le hge with heq | hgt
            · subst heq
              intro hfail
              rw [horacle] at hfail
              exact nomatch hfail
            · exact (ih _ _ _ _).2.2.2.2.2.1 i m' hgt hlt
          · intro i m' hge hlt hfail
            rcases Nat.eq_or_lt_of_le hge with heq | hgt
            · rw [← heq, horacle] at hfail
              exact nomatch hfail
            · exact (ih _ _ _ _).2.2.2.2.2.2 i m' hgt hlt hfail
        · -- tool phase, then the next iteration
          have hfc2 : fcs.isEmpty = false := by
            cases hh : fcs.isEmpty
            · rfl
            · exact absurd hh hfc
          rw [hfc2, Bool.not_false, if_pos rfl]
          refine ⟨?_, ?_, ?_, ?_, ?_, ?_, ?_⟩
          · exact le_trans (ih _ _ _ _).1 (by omega)
          · intro h
            exact ((ih _ _ _ _).2.1 h).trans (processCalls_sessions exec cwd fcs cs _)
          · intro h
            have H := (ih _ _ _ _).2.2.1 h
            rw [processCalls_sessions exec cwd] at H
            exact H
          · intro h
            exact (ih _ _ _ _).2.2.2.1 h
          · intro h
            exact (ih _ _ _ _).2.2.2.2.1 h
          · intro i m' hge hlt
            rcases Nat.eq_or_lt_of_le hge with heq | hgt
            · subst heq
              intro hfail
              rw [horacle] at hfail
              exact nomatch hfail
            · exact (ih _ _ _ _).2.2.2.2.2.1 i m' hgt hlt
          · intro i m' hge hlt hfail
            rcases Nat.eq_or_lt_of_le hge with heq | hgt
            · rw [← heq, horacle] at hfail
              exact nomatch hfail
            · exact (ih _ _ _ _).2.2.2.2.2.2 i m' hgt hlt hfail

/-- The init step never changes any session's turn history: the entry
it may create is empty, and an absent entry already reads as empty. -/
theorem initSession_turnHistory (st : AppState) (sid s : String) :
    turnHistory (initSession st sid).sessions s = turnHistory st.sessions s := by
  unfold initSession
  split
  · rename_i hnone
    by_cases hs : s = sid
    · subst hs
      simp [turnHistory, updateStore, Option.isNone_iff_eq_none.mp hnone]
    · simp [turnHistory, updateStore, hs]
  · rfl

/-- Committing over the initialized store is committing over the
original store. -/
theorem initSession_updateStore (st : AppState) (sid : String) (v : List Turn) :
    updateStore (initSession st sid).sessions sid v = updateStore st.sessions sid v := by
  unfold initSession
  split
  · funext k
    by_cases hk : k = sid <;> simp [updateStore, hk]
  · rfl

/-! ### Claims C6, C7 and C8: the orchestrator's exits -/

/-- Claim C6: one request performs at most 15 remote-model round-trips,
whatever the oracle answers; on the exhausted exit the fixed apology is
returned and no session's stored turn history changes. -/
theorem claim_C6 (exec : ExecOracle) (oracle : ModelOracle) (today cwd message sid : String)
    (st : AppState) :
    (process_chat exec oracle today cwd message sid st).roundTrips ≤ 15 ∧
      ((process_chat exec oracle today cwd message sid st).exit = .exhausted →
        (process_chat exec oracle today cwd message sid st).text = apologyMsg ∧
          ∀ s, turnHistory (process_chat exec oracle today cwd message sid st).state.sessions s =
            turnHistory st.sessions s) := by
  have H := chatLoop_spec exec oracle today cwd message sid 15
    (turnHistory (initSession st sid).sessions sid ++ [Turn.user message]) []
    (initSession st sid) 0
  simp only [process_chat]
  refine ⟨H.1, fun hex => ⟨H.2.2.2.1 hex, fun s => ?_⟩⟩
  have hne : (chatLoop exec oracle today cwd message sid 15
      (turnHistory (initSession st sid).sessions sid ++ [Turn.user message]) []
      (initSession st sid) 0).exit ≠ .done := by
    rw [hex]
    intro hc
    exact nomatch hc
  rw [H.2.1 hne, initSession_turnHistory]

/-- Witness for claim C6: a model that never produces text or tool
calls exhausts the bound; the apology comes back and the store's
histories are untouched. -/
theorem claim_C6_witness :
    (process_chat (fun _ _ => .completed "" "" 0) (fun _ => .reply [] none)
          "2026-10-12" "/" "m" "s" ⟨fun _ => none, [], emptyFS, []⟩).roundTrips ≤ 15 ∧
      (process_chat (fun _ _ => .completed "" "" 0) (fun _ => .reply [] none)
          "2026-10-12" "/" "m" "s" ⟨fun _ => none, [], emptyFS, []⟩).text = apologyMsg ∧
      turnHistory (process_chat (fun _ _ => .completed "" "" 0) (fun _ => .reply [] none)
          "2026-10-12" "/" "m" "s" ⟨fun _ => none, [], emptyFS, []⟩).state.sessions "s" =
        turnHistory (AppState.mk (fun _ => none) [] emptyFS []).sessions "s" := by
  have H := claim_C6 (fun _ _ => .completed "" "" 0) (fun _ => .reply [] none)
    "2026-10-12" "/" "m" "s" ⟨fun _ => none, [], emptyFS, []⟩
  have hex : (process_chat (fun _ _ => .completed "" "" 0) (fun _ => .reply [] none)
      "2026-10-12" "/" "m" "s" ⟨fun _ => none, [], emptyFS, []⟩).exit = .exhausted := by
    decide
  exact ⟨H.1, (H.2 hex).1, (H.2 hex).2 "s"⟩

/-- Claim C7: when a model invocation fails the loop aborts at that
round-trip with the error text and no retry — every earlier consumed
answer was a reply, any consumed failure forces the aborted exit — and
no session's stored turn history changes. -/
theorem claim_C7 (exec : ExecOracle) (oracle : ModelOracle) (today cwd message sid : String)
    (st : AppState) :
    ((process_chat exec oracle today cwd message sid st).exit = .aborted →
        (∃ emsg,
            oracle ((process_chat exec oracle today cwd message sid st).roundTrips - 1) =
                .fail emsg ∧
              (process_chat exec oracle today cwd message sid st).text = "Error: " ++ emsg) ∧
          ∀ s, turnHistory (process_chat exec oracle today cwd message sid st).state.sessions s =
            turnHistory st.sessions s) ∧
      ((∃ i emsg, i < (process_chat exec oracle today cwd message sid st).roundTrips ∧
          oracle i = .fail emsg) →
        (process_chat exec oracle today cwd message sid st).exit = .aborted) ∧
      (∀ i emsg, i + 1 < (process_chat exec oracle today cwd message sid st).roundTrips →
        oracle i ≠ .fail emsg) := by
  have H := chatLoop_spec exec oracle today cwd message sid 15
    (turnHistory (initSession st sid).sessions sid ++ [Turn.user message]) []
    (initSession st sid) 0
  simp only [process_chat]
  refine ⟨fun hab => ⟨H.2.2.2.2.1 hab, fun s => ?_⟩, fun hex => ?_,
    fun i emsg hlt => H.2.2.2.2.2.1 i emsg (Nat.zero_le i) hlt⟩
  · have hne : (chatLoop exec oracle today cwd message sid 15
        (turnHistory (initSession st sid).sessions sid ++ [Turn.user message]) []
        (initSession st sid) 0).exit ≠ .done := by
      rw [hab]
      intro hc
      exact nomatch hc
    rw [H.2.1 hne, initSession_turnHistory]
  · obtain ⟨i, emsg, hlt, hfail⟩ := hex
    exact H.2.2.2.2.2.2 i emsg (Nat.zero_le i) hlt hfail

/-- Witness for claim C7: a failure on the third round-trip aborts with
its message and leaves the stored history untouched. -/
theorem claim_C7_witness :
    (∃ emsg,
        (fun i => if i = 2 then ModelOutcome.fail "boom" else ModelOutcome.reply [] none)
            ((process_chat (fun _ _ => .completed "" "" 0)
                (fun i => if i = 2 then ModelOutcome.fail "boom" else ModelOutcome.reply [] none)
                "2026-10-12" "/" "m" "s" ⟨fun _ => none, [], emptyFS, []⟩).roundTrips - 1) =
            ModelOutcome.fail emsg ∧
          (process_chat (fun _ _ => .completed "" "" 0)
              (fun i => if i = 2 then ModelOutcome.fail "boom" else ModelOutcome.reply [] none)
              "2026-10-12" "/" "m" "s" ⟨fun _ => none, [], emptyFS, []⟩).text =
            "Error: " ++ emsg) ∧
      turnHistory (process_chat (fun _ _ => .completed "" "" 0)
          (fun i => if i = 2 then ModelOutcome.fail "boom" else ModelOutcome.reply [] none)
          "2026-10-12" "/" "m" "s" ⟨fun _ => none, [], emptyFS, []⟩).state.sessions "s" =
        turnHistory (AppState.mk (fun _ => none) [] emptyFS []).sessions "s" := by
  have H := claim_C7 (fun _ _ => .completed "" "" 0)
    (fun i => if i = 2 then ModelOutcome.fail "boom" else ModelOutcome.reply [] none)
    "2026-10-12" "/" "m" "s" ⟨fun _ => none, [], emptyFS, []⟩
  have hab : (process_chat (fun _ _ => .completed "" "" 0)
      (fun i => if i = 2 then ModelOutcome.fail "boom" else ModelOutcome.reply [] none)
      "2026-10-12" "/" "m" "s" ⟨fun _ => none, [], emptyFS, []⟩).exit = .aborted := by
    decide
  exact ⟨(H.1 hab).1, (H.1 hab).2 "s"⟩

/-- Claim C8 (amended): on the text-only exit the store gains exactly
the user turn and the assistant text turn for this session — the
intermediate tool-call and tool-response turns of the working history
are not persisted — and this is the only exit kind on which any stored
turn history changes. -/
theorem claim_C8 (exec : ExecOracle) (oracle : ModelOracle) (today cwd message sid : String)
    (st : AppState) :
    ((process_chat exec oracle today cwd message sid st).exit = .done →
        (process_chat exec oracle today cwd message sid st).state.sessions =
            updateStore st.sessions sid
              (turnHistory st.sessions sid ++
                [Turn.user message,
                  Turn.model (process_chat exec oracle today cwd message sid st).text]) ∧
          pyStrip (process_chat exec oracle today cwd message sid st).text ≠ "") ∧
      ((process_chat exec oracle today cwd message sid st).exit ≠ .done →
        ∀ s, turnHistory (process_chat exec oracle today cwd message sid st).state.sessions s =
          turnHistory st.sessions s) := by
  have H := chatLoop_spec exec oracle today cwd message sid 15
    (turnHistory (initSession st sid).sessions sid ++ [Turn.user message]) []
    (initSession st sid) 0
  simp only [process_chat]
  refine ⟨fun hd => ?_, fun hne s => ?_⟩
  · obtain ⟨h1, h2⟩ := H.2.2.1 hd
    refine ⟨?_, h2⟩
    rw [h1, initSession_updateStore, initSession_turnHistory]
  · rw [H.2.1 hne, initSession_turnHistory]

/-- Witness for claim C8: a text-only reply on the first round-trip
commits the user turn and the assistant turn. -/
theorem claim_C8_witness :
    (process_chat (fun _ _ => .completed "" "" 0)
          (fun _ => ModelOutcome.reply [] (some "done")) "2026-10-12" "/" "m" "s"
          ⟨fun _ => none, [], emptyFS, []⟩).state.sessions =
        updateStore (AppState.mk (fun _ => none) [] emptyFS []).sessions "s"
          (turnHistory (AppState.mk (fun _ => none) [] emptyFS []).sessions "s" ++
            [Turn.user "m",
              Turn.model (process_chat (fun _ _ => .completed "" "" 0)
                (fun _ => ModelOutcome.reply [] (some "done")) "2026-10-12" "/" "m" "s"
                ⟨fun _ => none, [], emptyFS, []⟩).text]) ∧
      pyStrip (process_chat (fun _ _ => .completed "" "" 0)
          (fun _ => ModelOutcome.reply [] (some "done")) "2026-10-12" "/" "m" "s"
          ⟨fun _ => none, [], emptyFS, []⟩).text ≠ "" :=
  (claim_C8 (fun _ _ => .completed "" "" 0) (fun _ => ModelOutcome.reply [] (some "done"))
      "2026-10-12" "/" "m" "s" ⟨fun _ => none, [], emptyFS, []⟩).1 (by decide)

/-- Counterexample to claim C8 as stated: after one tool-call iteration
and a final text reply, the committed history holds exactly the user
turn and the assistant turn — the tool-call and tool-response turns of
the working history are absent — although one tool-call record was
collected. -/
theorem claim_C8_counterexample :
    (process_chat (fun _ _ => .completed "" "" 0)
          (fun i => if i = 0 then
              ModelOutcome.reply [⟨"write_files", ToolArgs.write "f.txt" "hi"⟩] none
            else ModelOutcome.reply [] (some "done"))
          "2026-10-12" "/" "m" "s" ⟨fun _ => none, [], emptyFS, []⟩).state.sessions "s" =
        some [Turn.user "m", Turn.model "done"] ∧
      (process_chat (fun _ _ => .completed "" "" 0)
          (fun i => if i = 0 then
              ModelOutcome.reply [⟨"write_files", ToolArgs.write "f.txt" "hi"⟩] none
            else ModelOutcome.reply [] (some "done"))
          "2026-10-12" "/" "m" "s" ⟨fun _ => none, [], emptyFS, []⟩).calls =
        [⟨"write_files", some (ToolArgs.write "f.txt" "hi"), CallOutcome.success⟩] ∧
      (process_chat (fun _ _ => .completed "" "" 0)
          (fun i => if i = 0 then
              ModelOutcome.reply [⟨"write_files", ToolArgs.write "f.txt" "hi"⟩] none
            else ModelOutcome.reply [] (some "done"))
          "2026-10-12" "/" "m" "s" ⟨fun _ => none, [], emptyFS, []⟩).exit = .done ∧
      (process_chat (fun _ _ => .completed "" "" 0)
          (fun i => if i = 0 then
              ModelOutcome.reply [⟨"write_files", ToolArgs.write "f.txt" "hi"⟩] none
            else ModelOutcome.reply [] (some "done"))
          "2026-10-12" "/" "m" "s" ⟨fun _ => none, [], emptyFS, []⟩).state.sessions "s" ≠
        some [Turn.user "m",
          Turn.modelCalls [⟨"write_files", ToolArgs.write "f.txt" "hi"⟩],
          Turn.toolResponses [⟨"write_files",
            ToolResponse.result (writeSuccessMsg "f.txt" "hi")⟩],
          Turn.model "done"] := by
  decide

end Singularity
